import Mathlib

/-!
Shallow embedding of the Reunion exchange client
(`src/client/exchange.go` of CloakedServices/CloakedNetworkPoC).

Byte strings are modelled as `List Nat`; Go maps are modelled as
association lists with unique keys maintained by `insertA`.  The
cryptographic primitives, the database client, and the shutdown signal
live in other packages (github.com/katzenpost/reunion) and are therefore
parameters of the embedding, collected in an `Env` record; claims are
settled for all environments, and counterexamples instantiate a concrete
environment.  The driver `Run` is modelled with explicit fuel: a fuel-out
run returns the trace of updates emitted so far.
-/

namespace Reunion

/-- Byte strings ([]byte in Go). -/
abbrev Bytes := List Nat

/-- 32-byte hash of a wire T-message ([32]byte in Go). -/
abbrev ExchangeHash := List Nat

/-- crypto.PublicKey is opaque to the exchange driver. -/
abbrev PublicKey := List Nat

/-- Lookup in a Go-map modelled as an association list. -/
def lookupA {V : Type} (k : ExchangeHash) : List (ExchangeHash × V) → Option V
  | [] => none
  | (k2, v) :: rest => if k = k2 then some v else lookupA k rest

/-- Go-map assignment `m[k] = v`: replace the binding if present, append otherwise. -/
def insertA {V : Type} (k : ExchangeHash) (v : V) : List (ExchangeHash × V) → List (ExchangeHash × V)
  | [] => [(k, v)]
  | (k2, v2) :: rest => if k = k2 then (k, v) :: rest else (k2, v2) :: insertA k v rest

/-- The session object of the reunion crypto package; the driver only
reads its epoch, the rest of its key material is behind the `Env`
functions. -/
structure Session where
  epoch : Nat
deriving DecidableEq, Repr

/-- ReunionUpdate from exchange.go. -/
structure ReunionUpdate where
  contactID : Nat
  error : Option String
  serialized : Option (List Nat)
  result : Option Bytes
deriving DecidableEq, Repr

/-- The persistent fields of the Exchange struct of exchange.go
(log, updateChan, db and shutdownChan are harness parameters). -/
structure Exchange where
  status : Nat
  contactID : Nat
  session : Session
  payload : Bytes
  sentT1 : Bytes
  sentT2Map : List (ExchangeHash × Bytes)
  repliedT1s : List (ExchangeHash × Bytes)
  repliedT2s : List (ExchangeHash × Bytes)
  receivedT1s : List (ExchangeHash × Bytes)
  receivedT2s : List (ExchangeHash × Bytes)
  receivedT3s : List (ExchangeHash × Bytes)
  receivedT1Alphas : List (ExchangeHash × PublicKey)
  decryptedT1Betas : List (ExchangeHash × PublicKey)
deriving DecidableEq, Repr

def initialState : Nat := 0

def t1MessageSentState : Nat := 1

/-- Reunion DB commands (package commands). -/
inductive Command
  | fetchState (epoch : Nat) (t1Hash : ExchangeHash)
  | sendT1 (epoch : Nat) (payload : Bytes)
  | sendT2 (epoch : Nat) (srcT1Hash : ExchangeHash) (dstT1Hash : ExchangeHash) (payload : Bytes)
  | sendT3 (epoch : Nat) (srcT1Hash : ExchangeHash) (dstT1Hash : ExchangeHash) (payload : Bytes)
deriving DecidableEq

/-- One message of a RequestedReunionState (package server). -/
structure ReunionMessage where
  srcT1Hash : ExchangeHash
  t2Payload : Bytes
  t3Payload : Bytes
deriving DecidableEq, Repr

/-- server.RequestedReunionState. -/
structure RequestedReunionState where
  t1Map : List (ExchangeHash × Bytes)
  messages : List ReunionMessage
deriving DecidableEq, Repr

/-- Reunion DB responses: StateResponse, MessageResponse, or a command of
the wrong type (the failed Go type assertion). `errorCode = 0` is
commands.ResponseStatusOK. -/
inductive Response
  | state (errorCode : Nat) (truncated : Bool) (payload : Bytes)
  | message (errorCode : Nat)
  | other
deriving DecidableEq

/-- The external collaborators of the Exchange driver: the session's
cryptographic operations (package crypto, deterministic for a fixed
session), SHA-256, the Reunion database client, the RequestedReunionState
codec, and the shutdown signal (indexed by how many times `shouldStop`
has been consulted). -/
structure Env where
  generateType1Message : Bytes → Except String Bytes
  decodeT1Message : Bytes → Except String (Bytes × Bytes × Bytes)
  processType1MessageAlpha : Bytes → Except String (Bytes × PublicKey)
  getCandidateKey : Bytes → PublicKey → Except String Bytes
  decryptT1Beta : Bytes → Bytes → Except String PublicKey
  composeType3Message : PublicKey → Except String Bytes
  processType3Message : Bytes → Bytes → PublicKey → Except String Bytes
  hash : Bytes → ExchangeHash
  query : Command → Except String Response
  unmarshalState : Bytes → Except String RequestedReunionState
  stop : Nat → Bool

/-- The T1Map half of Exchange.processState: merge unseen T1s. -/
def processT1Map : List (ExchangeHash × Bytes) → Exchange → Bool → Bool × Exchange
  | [], e, hasNew => (hasNew, e)
  | (t1hash, t1) :: rest, e, hasNew =>
    match lookupA t1hash e.receivedT1s with
    | some _ => processT1Map rest e hasNew
    | none => processT1Map rest { e with receivedT1s := insertA t1hash t1 e.receivedT1s } true

/-- The Messages half of Exchange.processState: a message with a
non-empty T2 payload is stored as a T2 if unseen, otherwise a non-empty
T3 payload is stored as a T3 if unseen; a message with both payloads
empty returns an error at once. -/
def processMessages : List ReunionMessage → Exchange → Bool → Bool × Exchange × Option String
  | [], e, hasNew => (hasNew, e, none)
  | m :: rest, e, hasNew =>
    if m.t2Payload.length > 0 then
      match lookupA m.srcT1Hash e.receivedT2s with
      | some _ => processMessages rest e hasNew
      | none =>
        processMessages rest { e with receivedT2s := insertA m.srcT1Hash m.t2Payload e.receivedT2s } true
    else if m.t3Payload.length > 0 then
      match lookupA m.srcT1Hash e.receivedT3s with
      | some _ => processMessages rest e hasNew
      | none =>
        processMessages rest { e with receivedT3s := insertA m.srcT1Hash m.t3Payload e.receivedT3s } true
    else
      (false, e, some "wtf, invalid message found")

/-- Exchange.processState. -/
def processState (e : Exchange) (st : RequestedReunionState) : Bool × Exchange × Option String :=
  match processT1Map st.t1Map e false with
  | (hasNew, e1) => processMessages st.messages e1 hasNew

/-- Exchange.fetchState: query FetchState, check the response type, the
error code, unmarshal the payload, reject truncation, then merge via
processState.  Returns the (possibly mutated) exchange and the error. -/
def fetchState (env : Env) (e : Exchange) : Exchange × Option String :=
  match env.query (Command.fetchState e.session.epoch (env.hash e.sentT1)) with
  | Except.error msg => (e, some msg)
  | Except.ok (Response.state errorCode truncated payload) =>
    if errorCode ≠ 0 then
      (e, some "fetch state: received an error status code from the reunion db")
    else
      match env.unmarshalState payload with
      | Except.error msg => (e, some msg)
      | Except.ok st =>
        if truncated then (e, some "truncated Reunion DB state not yet supported")
        else
          match processState e st with
          | (_, e1, err) => (e1, err)
  | Except.ok _ => (e, some "fetch state: wrong response command received")

/-- Exchange.sendT1: generate the T1 (storing it in sentT1), submit it,
and report success. -/
def sendT1 (env : Env) (e : Exchange) : Bool × Exchange :=
  match env.generateType1Message e.payload with
  | Except.error _ => (false, { e with sentT1 := [] })
  | Except.ok t1 =>
    let e1 := { e with sentT1 := t1 }
    match env.query (Command.sendT1 e1.session.epoch t1) with
    | Except.error _ => (false, e1)
    | Except.ok (Response.message ec) => if ec ≠ 0 then (false, e1) else (true, e1)
    | Except.ok _ => (false, e1)

/-- The loop body of Exchange.sendT2Messages over the entries of
receivedT1s.  Skips our own T1 and already-answered T1s; a decode or
alpha-processing failure, a query error, a wrong response type, or a
non-OK code returns false immediately (the remaining entries are not
visited).  The alpha and the T2 are stored before the query; repliedT1s
is marked only after an OK response. -/
def sendT2Loop (env : Env) (myT1Hash : ExchangeHash) :
    List (ExchangeHash × Bytes) → Exchange → Bool → Bool × Exchange
  | [], e, hasSent => (hasSent, e)
  | (t1Hash, t1) :: rest, e, hasSent =>
    if t1Hash = myT1Hash then sendT2Loop env myT1Hash rest e hasSent
    else if (lookupA t1Hash e.repliedT1s).isSome then sendT2Loop env myT1Hash rest e hasSent
    else
      match env.decodeT1Message t1 with
      | Except.error _ => (false, e)
      | Except.ok (alpha, _, _) =>
        match env.processType1MessageAlpha alpha with
        | Except.error _ => (false, e)
        | Except.ok (t2, alphaPubKey) =>
          let e1 := { e with receivedT1Alphas := insertA t1Hash alphaPubKey e.receivedT1Alphas }
          let t2Hash := env.hash t2
          let e2 := { e1 with sentT2Map := insertA t2Hash t2 e1.sentT2Map }
          match env.query (Command.sendT2 e2.session.epoch myT1Hash t1Hash t2) with
          | Except.error _ => (false, e2)
          | Except.ok (Response.message ec) =>
            if ec ≠ 0 then (false, e2)
            else sendT2Loop env myT1Hash rest
              { e2 with repliedT1s := insertA t1Hash t1 e2.repliedT1s } true
          | Except.ok _ => (false, e2)

/-- Exchange.sendT2Messages. -/
def sendT2Messages (env : Env) (e : Exchange) : Bool × Exchange :=
  sendT2Loop env (env.hash e.sentT1) e.receivedT1s e false

/-- The loop body of Exchange.sendT3Messages over the entries of
receivedT2s.  A missing T1 or missing alpha, a candidate-key or T1-decode
or compose failure, a query error, a wrong response type, or a non-OK
code returns false immediately; an already-replied T2 is skipped; a
DecryptT1Beta failure skips only this entry and continues. -/
def sendT3Loop (env : Env) (myT1Hash : ExchangeHash) :
    List (ExchangeHash × Bytes) → Exchange → Bool → Bool × Exchange
  | [], e, hasSentT3 => (hasSentT3, e)
  | (srcT1Hash, t2) :: rest, e, hasSentT3 =>
    match lookupA srcT1Hash e.receivedT1s with
    | none => (false, e)
    | some t1 =>
      let t2Hash := env.hash t2
      if (lookupA t2Hash e.repliedT2s).isSome then sendT3Loop env myT1Hash rest e hasSentT3
      else
        match lookupA srcT1Hash e.receivedT1Alphas with
        | none => (false, e)
        | some alphaKey =>
          match env.getCandidateKey t2 alphaKey with
          | Except.error _ => (false, e)
          | Except.ok candidateKey =>
            match env.decodeT1Message t1 with
            | Except.error _ => (false, e)
            | Except.ok (_, t1beta, _) =>
              match env.decryptT1Beta candidateKey t1beta with
              | Except.error _ => sendT3Loop env myT1Hash rest e hasSentT3
              | Except.ok beta =>
                match env.composeType3Message beta with
                | Except.error _ => (false, e)
                | Except.ok t3 =>
                  match env.query (Command.sendT3 e.session.epoch myT1Hash srcT1Hash t3) with
                  | Except.error _ => (false, e)
                  | Except.ok (Response.message ec) =>
                    if ec ≠ 0 then (false, e)
                    else sendT3Loop env myT1Hash rest
                      { e with
                        decryptedT1Betas := insertA srcT1Hash beta e.decryptedT1Betas,
                        repliedT2s := insertA t2Hash t2 e.repliedT2s } true
                  | Except.ok _ => (false, e)

/-- Exchange.sendT3Messages. -/
def sendT3Messages (env : Env) (e : Exchange) : Bool × Exchange :=
  sendT3Loop env (env.hash e.sentT1) e.receivedT2s e false

/-- The loop body of Exchange.processT3Messages over receivedT3s.  It
never mutates the exchange; it returns whether any T3 was processed and
the result updates emitted (one per successfully processed T3, in loop
order).  A missing beta skips the entry; a missing T1, a T1-decode
failure or a ProcessType3Message failure returns false immediately. -/
def processT3Loop (env : Env) (e : Exchange) :
    List (ExchangeHash × Bytes) → Bool → List ReunionUpdate →
    Bool × Exchange × List ReunionUpdate
  | [], processed, trace => (processed, e, trace)
  | (srcT1Hash, t3) :: rest, processed, trace =>
    match lookupA srcT1Hash e.decryptedT1Betas with
    | none => processT3Loop env e rest processed trace
    | some beta =>
      match lookupA srcT1Hash e.receivedT1s with
      | none => (false, e, trace)
      | some t1 =>
        match env.decodeT1Message t1 with
        | Except.error _ => (false, e, trace)
        | Except.ok (_, _, gamma) =>
          match env.processType3Message t3 gamma beta with
          | Except.error _ => (false, e, trace)
          | Except.ok plaintext =>
            processT3Loop env e rest true
              (trace ++ [{ contactID := e.contactID, error := none,
                           serialized := none, result := some plaintext }])

/-- Exchange.processT3Messages (it never writes to the exchange, so the
exchange is returned untouched by every branch). -/
def processT3Messages (env : Env) (e : Exchange) : Bool × Exchange × List ReunionUpdate :=
  processT3Loop env e e.receivedT3s false []

/-!
Snapshot codec.

Modelled from the spec: the serializableExchange type and its CBOR
Marshal/Unmarshal (§4.5 of the spec) are not among the source files;
only their caller Exchange.Marshal / Exchange.Unmarshal is.  Following
the spec's words — "A self-describing binary encoder (CBOR or
equivalent) over the serializable_exchange tuple {contact_id, status,
session, sent_t1, sent_t2_map, received_t1s, received_t2s, received_t3s,
replied_t1s, replied_t2s, received_t1_alphas, decrypted_t1_betas}" and
"Unknown trailing bytes ⇒ reject" — the code below is a self-describing
length-prefixed token encoder over exactly that tuple, with a decoder
that rejects trailing tokens.
-/

/-- serializableExchange: the 12 persistent fields, in the order
Exchange.Marshal fills them. -/
structure SerializableExchange where
  contactID : Nat
  status : Nat
  session : Session
  sentT1 : Bytes
  sentT2Map : List (ExchangeHash × Bytes)
  receivedT1s : List (ExchangeHash × Bytes)
  receivedT2s : List (ExchangeHash × Bytes)
  receivedT3s : List (ExchangeHash × Bytes)
  repliedT1s : List (ExchangeHash × Bytes)
  repliedT2s : List (ExchangeHash × Bytes)
  receivedT1Alphas : List (ExchangeHash × PublicKey)
  decryptedT1Betas : List (ExchangeHash × PublicKey)
deriving DecidableEq, Repr

/-- Length-prefixed byte-string encoding. -/
def encBytes (b : Bytes) : List Nat := b.length :: b

/-- Decode one length-prefixed byte string, returning it and the rest. -/
def decBytes : List Nat → Option (Bytes × List Nat)
  | [] => none
  | n :: rest => if n ≤ rest.length then some (rest.take n, rest.drop n) else none

/-- Encoding of map entries, one key/value byte string each. -/
def encEntries : List (ExchangeHash × Bytes) → List Nat
  | [] => []
  | (k, v) :: rest => encBytes k ++ encBytes v ++ encEntries rest

/-- Count-prefixed map encoding. -/
def encMap (m : List (ExchangeHash × Bytes)) : List Nat := m.length :: encEntries m

/-- Decode a known number of map entries. -/
def decEntries : Nat → List Nat → Option (List (ExchangeHash × Bytes) × List Nat)
  | 0, toks => some ([], toks)
  | n + 1, toks =>
    match decBytes toks with
    | none => none
    | some (k, toks1) =>
      match decBytes toks1 with
      | none => none
      | some (v, toks2) =>
        match decEntries n toks2 with
        | none => none
        | some (rest, toks3) => some ((k, v) :: rest, toks3)

/-- Decode a count-prefixed map. -/
def decMap : List Nat → Option (List (ExchangeHash × Bytes) × List Nat)
  | [] => none
  | n :: rest => decEntries n rest

/-- serializableExchange.Marshal, modelled from the spec (§4.5). -/
def serializableMarshal (s : SerializableExchange) : List Nat :=
  s.contactID :: s.status :: s.session.epoch ::
    (encBytes s.sentT1 ++ encMap s.sentT2Map ++ encMap s.receivedT1s ++
     encMap s.receivedT2s ++ encMap s.receivedT3s ++ encMap s.repliedT1s ++
     encMap s.repliedT2s ++ encMap s.receivedT1Alphas ++ encMap s.decryptedT1Betas)

/-- serializableExchange.Unmarshal, modelled from the spec (§4.5);
trailing tokens are rejected. -/
def serializableUnmarshal (data : List Nat) : Option SerializableExchange :=
  match data with
  | cid :: status :: ep :: rest =>
    match decBytes rest with
    | none => none
    | some (sentT1, r1) =>
      match decMap r1 with
      | none => none
      | some (sentT2Map, r2) =>
        match decMap r2 with
        | none => none
        | some (receivedT1s, r3) =>
          match decMap r3 with
          | none => none
          | some (receivedT2s, r4) =>
            match decMap r4 with
            | none => none
            | some (receivedT3s, r5) =>
              match decMap r5 with
              | none => none
              | some (repliedT1s, r6) =>
                match decMap r6 with
                | none => none
                | some (repliedT2s, r7) =>
                  match decMap r7 with
                  | none => none
                  | some (receivedT1Alphas, r8) =>
                    match decMap r8 with
                    | none => none
                    | some (decryptedT1Betas, r9) =>
                      if r9 = [] then
                        some { contactID := cid, status := status, session := { epoch := ep },
                               sentT1 := sentT1, sentT2Map := sentT2Map,
                               receivedT1s := receivedT1s, receivedT2s := receivedT2s,
                               receivedT3s := receivedT3s, repliedT1s := repliedT1s,
                               repliedT2s := repliedT2s, receivedT1Alphas := receivedT1Alphas,
                               decryptedT1Betas := decryptedT1Betas }
                      else none
  | _ => none

/-- Exchange.Marshal: copy the 12 persistent fields into a
serializableExchange and marshal it. -/
def exchangeMarshal (e : Exchange) : List Nat :=
  serializableMarshal
    { contactID := e.contactID, status := e.status, session := e.session,
      sentT1 := e.sentT1, sentT2Map := e.sentT2Map,
      receivedT1s := e.receivedT1s, receivedT2s := e.receivedT2s,
      receivedT3s := e.receivedT3s, repliedT1s := e.repliedT1s,
      repliedT2s := e.repliedT2s, receivedT1Alphas := e.receivedT1Alphas,
      decryptedT1Betas := e.decryptedT1Betas }

/-- Exchange.Unmarshal: on decode failure return the error leaving the
exchange alone; on success overwrite the 12 persistent fields (payload
is not part of the snapshot). -/
def exchangeUnmarshal (e : Exchange) (data : List Nat) : Except String Exchange :=
  match serializableUnmarshal data with
  | none => Except.error "wtf unmarshal failure"
  | some s =>
    Except.ok { e with
      contactID := s.contactID, status := s.status, session := s.session,
      sentT1 := s.sentT1, sentT2Map := s.sentT2Map,
      receivedT1s := s.receivedT1s, receivedT2s := s.receivedT2s,
      receivedT3s := s.receivedT3s, repliedT1s := s.repliedT1s,
      repliedT2s := s.repliedT2s, receivedT1Alphas := s.receivedT1Alphas,
      decryptedT1Betas := s.decryptedT1Betas }

/-!
The driver.  Exchange.sentUpdateOK marshals the exchange and emits a
snapshot update; in this model the spec-modelled marshal is total, so
the emitted update always carries `error = none` and sentUpdateOK always
returns true.  Exchange.Run is modelled with fuel over the T1Sent loop;
a fuel-out run stands for a still-running driver and returns the trace
emitted so far.  `Env.stop` is consulted at successive indexes, one per
shouldStop call, and the final index is returned so that the number of
cancellation checks is observable.
-/

/-- The snapshot update sentUpdateOK pushes on the update channel. -/
def sentUpdate (e : Exchange) : ReunionUpdate :=
  { contactID := e.contactID, error := none,
    serialized := some (exchangeMarshal e), result := none }

/-- Outcome of a (possibly still running) driver: final exchange, the
updates emitted in order, and the next shouldStop index (= number of
cancellation checks performed so far when started at 0). -/
structure RunResult where
  exchange : Exchange
  trace : List ReunionUpdate
  stopChecks : Nat
deriving DecidableEq, Repr

/-- The T1Sent loop of Exchange.Run: fetch state (terminating silently on
error), send T2s, emit a snapshot, check cancellation, send T3s, emit a
snapshot, check cancellation, process T3s and exit when one succeeded. -/
def runT1Sent (env : Env) : Nat → Exchange → Nat → RunResult
  | 0, e, idx => { exchange := e, trace := [], stopChecks := idx }
  | fuel + 1, e, idx =>
    match fetchState env e with
    | (e1, some _) => { exchange := e1, trace := [], stopChecks := idx }
    | (e1, none) =>
      let e2 := (sendT2Messages env e1).2
      let u2 := sentUpdate e2
      if env.stop idx then { exchange := e2, trace := [u2], stopChecks := idx + 1 }
      else
        let e3 := (sendT3Messages env e2).2
        let u3 := sentUpdate e3
        if env.stop (idx + 1) then { exchange := e3, trace := [u2, u3], stopChecks := idx + 2 }
        else
          match processT3Messages env e3 with
          | (true, e4, t3trace) =>
            { exchange := e4, trace := u2 :: u3 :: t3trace, stopChecks := idx + 2 }
          | (false, e4, t3trace) =>
            let r := runT1Sent env fuel e4 (idx + 2)
            { exchange := r.exchange, trace := u2 :: u3 :: (t3trace ++ r.trace),
              stopChecks := r.stopChecks }

/-- Exchange.Run: from Initial, send the T1, move to T1Sent, snapshot,
check cancellation and fall through to the loop; from T1Sent run the
loop; from any other status emit the unknown-state error update. -/
def runExchange (env : Env) (fuel : Nat) (e : Exchange) (idx : Nat) : RunResult :=
  if e.status = initialState then
    match sendT1 env e with
    | (false, e1) => { exchange := e1, trace := [], stopChecks := idx }
    | (true, e1) =>
      let e2 := { e1 with status := t1MessageSentState }
      let u1 := sentUpdate e2
      if env.stop idx then { exchange := e2, trace := [u1], stopChecks := idx + 1 }
      else
        let r := runT1Sent env fuel e2 (idx + 1)
        { exchange := r.exchange, trace := u1 :: r.trace, stopChecks := r.stopChecks }
  else if e.status = t1MessageSentState then runT1Sent env fuel e idx
  else
    { exchange := e,
      trace := [{ contactID := e.contactID, error := some "unknown state error",
                  serialized := none, result := none }],
      stopChecks := idx }

/-- NewExchange: fresh state with empty maps, Initial status, nil sentT1. -/
def newExchange (contactID : Nat) (session : Session) (payload : Bytes) : Exchange :=
  { status := initialState, contactID := contactID, session := session, payload := payload,
    sentT1 := [], sentT2Map := [], repliedT1s := [], repliedT2s := [], receivedT1s := [],
    receivedT2s := [], receivedT3s := [], receivedT1Alphas := [], decryptedT1Betas := [] }

/-- The Initial-state step of Run: sendT1, and on success the status
assignment to T1Sent. -/
def sendT1Step (env : Env) (e : Exchange) : Exchange :=
  match sendT1 env e with
  | (false, e1) => e1
  | (true, e1) => { e1 with status := t1MessageSentState }

/-- Exchange states reachable by the driver: a fresh exchange, the
Initial-state T1 step, the three state-mutating loop steps from T1Sent
(processT3Messages never mutates the exchange), and resumption from a
snapshot of a reachable state (NewExchangeFromSnapshot). -/
inductive Reachable (env : Env) : Exchange → Prop
  | init (contactID : Nat) (session : Session) (payload : Bytes) :
      Reachable env (newExchange contactID session payload)
  | t1Step (e : Exchange) : Reachable env e → e.status = initialState →
      Reachable env (sendT1Step env e)
  | fetch (e : Exchange) : Reachable env e → e.status = t1MessageSentState →
      Reachable env (fetchState env e).1
  | t2 (e : Exchange) : Reachable env e → e.status = t1MessageSentState →
      Reachable env (sendT2Messages env e).2
  | t3 (e : Exchange) : Reachable env e → e.status = t1MessageSentState →
      Reachable env (sendT3Messages env e).2
  | resume (e e0 e1 : Exchange) : Reachable env e →
      exchangeUnmarshal e0 (exchangeMarshal e) = Except.ok e1 → Reachable env e1

/-! Observables and invariant predicates. -/

/-- No update of the trace carries an error. -/
def errorFree (t : List ReunionUpdate) : Bool :=
  t.all fun u => !u.error.isSome

/-- Every update of the trace carries a result. -/
def resultsOnly (t : List ReunionUpdate) : Bool :=
  t.all fun u => u.result.isSome

/-- Number of snapshot-bearing updates in a trace. -/
def snapshotCount (t : List ReunionUpdate) : Nat :=
  (t.filter fun u => u.serialized.isSome).length

/-- Number of result-bearing updates in a trace. -/
def resultCount (t : List ReunionUpdate) : Nat :=
  (t.filter fun u => u.result.isSome).length

/-- The keys of a modelled Go map are pairwise distinct. -/
def keysNodup {V : Type} (m : List (ExchangeHash × V)) : Prop :=
  (m.map Prod.fst).Nodup

/-- Every binding of `old` is still a binding of `new`. -/
def bindingsPreserved {V : Type} (old new : List (ExchangeHash × V)) : Prop :=
  ∀ k v, lookupA k old = some v → lookupA k new = some v

/-- repliedT1s and repliedT2s only grow across each of the four loop
operations of the driver. -/
def ReplyMonotone (env : Env) (e : Exchange) : Prop :=
  bindingsPreserved e.repliedT1s (fetchState env e).1.repliedT1s ∧
  bindingsPreserved e.repliedT2s (fetchState env e).1.repliedT2s ∧
  bindingsPreserved e.repliedT1s (sendT2Messages env e).2.repliedT1s ∧
  bindingsPreserved e.repliedT2s (sendT2Messages env e).2.repliedT2s ∧
  bindingsPreserved e.repliedT1s (sendT3Messages env e).2.repliedT1s ∧
  bindingsPreserved e.repliedT2s (sendT3Messages env e).2.repliedT2s ∧
  bindingsPreserved e.repliedT1s (processT3Messages env e).2.1.repliedT1s ∧
  bindingsPreserved e.repliedT2s (processT3Messages env e).2.1.repliedT2s

/-- Every binding of repliedT1s is a binding of receivedT1s. -/
def RepliedSubset (e : Exchange) : Prop :=
  bindingsPreserved e.repliedT1s e.receivedT1s

/-- processState never overwrites or removes an existing binding of
receivedT1s, receivedT2s or receivedT3s. -/
def FirstWriteWins (e : Exchange) (st : RequestedReunionState) : Prop :=
  bindingsPreserved e.receivedT1s (processState e st).2.1.receivedT1s ∧
  bindingsPreserved e.receivedT2s (processState e st).2.1.receivedT2s ∧
  bindingsPreserved e.receivedT3s (processState e st).2.1.receivedT3s

/-- If some fetched message has neither a T2 nor a T3 payload,
processState reports an error. -/
def EmptyMessageErrs (e : Exchange) (st : RequestedReunionState) : Prop :=
  (∃ m ∈ st.messages, m.t2Payload = [] ∧ m.t3Payload = []) →
    (processState e st).2.2 ≠ none

/-- The four bodies of one T1Sent loop iteration, composed. -/
def step1 (env : Env) (e : Exchange) : Exchange := (fetchState env e).1

def step2 (env : Env) (e : Exchange) : Exchange := (sendT2Messages env (step1 env e)).2

def step3 (env : Env) (e : Exchange) : Exchange := (sendT3Messages env (step2 env e)).2

def step4 (env : Env) (e : Exchange) : Bool × Exchange × List ReunionUpdate :=
  processT3Messages env (step3 env e)

/-! Concrete environments and exchange states, used by the
counterexamples and witnesses. -/

/-- A database that answers FetchState with an empty OK state and every
send with an OK message response. -/
def queryOk : Command → Except String Response
  | Command.fetchState _ _ => Except.ok (Response.state 0 false [])
  | _ => Except.ok (Response.message 0)

/-- An environment where every primitive and every query succeeds and
cancellation is never signalled. -/
def envOk : Env :=
  { generateType1Message := fun _ => Except.ok [9]
  , decodeT1Message := fun t1 => Except.ok ([50, t1.headD 0], [60, t1.headD 0], [70, t1.headD 0])
  , processType1MessageAlpha := fun alpha => Except.ok (80 :: alpha, 81 :: alpha)
  , getCandidateKey := fun t2 key => Except.ok (90 :: (t2 ++ key))
  , decryptT1Beta := fun ck beta => Except.ok (91 :: (ck ++ beta))
  , composeType3Message := fun beta => Except.ok (92 :: beta)
  , processType3Message := fun t3 gamma beta => Except.ok (t3 ++ gamma ++ beta)
  , hash := fun b => 100 :: b
  , query := queryOk
  , unmarshalState := fun _ => Except.ok { t1Map := [], messages := [] }
  , stop := fun _ => false }

/-- envOk, except the FetchState query fails at the transport. -/
def envFetchFail : Env :=
  { envOk with
    query := fun c =>
      match c with
      | Command.fetchState _ _ => Except.error "reunion db transport failure"
      | _ => Except.ok (Response.message 0) }

/-- envOk, except T1 generation fails. -/
def envT1GenFail : Env :=
  { envOk with generateType1Message := fun _ => Except.error "t1 generation failure" }

/-- envOk, except the SendT2 query returns a non-OK status code. -/
def envT2NonOk : Env :=
  { envOk with
    query := fun c =>
      match c with
      | Command.fetchState _ _ => Except.ok (Response.state 0 false [])
      | Command.sendT2 _ _ _ _ => Except.ok (Response.message 1)
      | _ => Except.ok (Response.message 0) }

/-- envOk, except DecodeT1Message fails exactly on the T1 `[1]`. -/
def envDecodeFailOn1 : Env :=
  { envOk with
    decodeT1Message := fun t1 =>
      if t1 = [1] then Except.error "t1 decode failure"
      else Except.ok ([50, t1.headD 0], [60, t1.headD 0], [70, t1.headD 0]) }

/-- envOk, except cancellation is signalled at every check. -/
def envStopNow : Env :=
  { envOk with stop := fun _ => true }

/-- A fresh exchange. -/
def eInit : Exchange := newExchange 7 { epoch := 1 } [3]

/-- A T1Sent exchange with all maps empty. -/
def eIdle : Exchange := { eInit with status := t1MessageSentState, sentT1 := [9] }

/-- A T1Sent exchange holding two already-answered foreign T1s and a
pending successfully-decryptable T3 from each of them. -/
def eC2 : Exchange :=
  { eIdle with
    receivedT1s := [([1], [10]), ([2], [20])]
    repliedT1s := [([1], [10]), ([2], [20])]
    receivedT2s := [([1], [51]), ([2], [52])]
    repliedT2s := [([100, 51], [51]), ([100, 52], [52])]
    receivedT3s := [([1], [31]), ([2], [32])]
    decryptedT1Betas := [([1], [41]), ([2], [42])] }

/-- A T1Sent exchange holding two unanswered foreign T1s, the first of
which (`[1]`) fails to decode under envDecodeFailOn1. -/
def eC3 : Exchange :=
  { eIdle with receivedT1s := [([1], [1]), ([2], [2])] }

/-- A T1Sent exchange holding two pending T2s whose T1s are known, with
a stored alpha only for the second source. -/
def eC4 : Exchange :=
  { eIdle with
    receivedT1s := [([1], [10]), ([2], [20])]
    receivedT2s := [([1], [5]), ([2], [6])]
    receivedT1Alphas := [([2], [8])] }

/-- A T1Sent exchange holding one unanswered foreign T1. -/
def eC5 : Exchange :=
  { eIdle with receivedT1s := [([1], [10])] }

/-! Map lemmas. -/

theorem lookupA_insertA {V : Type} (k k2 : ExchangeHash) (v : V) (m : List (ExchangeHash × V)) :
    lookupA k (insertA k2 v m) = if k = k2 then some v else lookupA k m := by
  induction m with
  | nil => simp [insertA, lookupA]
  | cons kv rest ih =>
    obtain ⟨k3, v3⟩ := kv
    by_cases h23 : k2 = k3
    · subst h23
      by_cases hk : k = k2 <;> simp [insertA, lookupA, hk]
    · by_cases hk3 : k = k3
      · subst hk3
        have hk2 : ¬k = k2 := fun h => h23 h.symm
        simp [insertA, lookupA, h23, hk2]
      · simp [insertA, lookupA, h23, hk3, ih]

theorem mem_keys_insertA {V : Type} (a k : ExchangeHash) (v : V) (m : List (ExchangeHash × V)) :
    a ∈ (insertA k v m).map Prod.fst → a = k ∨ a ∈ m.map Prod.fst := by
  induction m with
  | nil => simp [insertA]
  | cons kv rest ih =>
    obtain ⟨k2, v2⟩ := kv
    by_cases h : k = k2
    · subst h
      simp [insertA]
    · simp only [insertA, if_neg h, List.map_cons, List.mem_cons]
      rintro (h2 | h2)
      · exact Or.inr (Or.inl h2)
      · rcases ih h2 with h3 | h3
        · exact Or.inl h3
        · exact Or.inr (Or.inr h3)

theorem keysNodup_insertA {V : Type} (k : ExchangeHash) (v : V) (m : List (ExchangeHash × V)) :
    keysNodup m → keysNodup (insertA k v m) := by
  induction m with
  | nil => intro _; simp [insertA, keysNodup]
  | cons kv rest ih =>
    obtain ⟨k2, v2⟩ := kv
    intro hnd
    rw [keysNodup, List.map_cons, List.nodup_cons] at hnd
    by_cases h : k = k2
    · subst h
      rw [keysNodup, insertA, if_pos rfl, List.map_cons, List.nodup_cons]
      exact hnd
    · rw [keysNodup, insertA, if_neg h, List.map_cons, List.nodup_cons]
      refine ⟨fun hmem => ?_, ih hnd.2⟩
      rcases mem_keys_insertA k2 k v rest hmem with h2 | h2
      · exact h (h2 ▸ rfl)
      · exact hnd.1 h2

theorem lookupA_of_mem {V : Type} (k : ExchangeHash) (v : V) (m : List (ExchangeHash × V)) :
    keysNodup m → (k, v) ∈ m → lookupA k m = some v := by
  induction m with
  | nil => intro _ h; simp at h
  | cons kv rest ih =>
    obtain ⟨k2, v2⟩ := kv
    intro hnd hmem
    rw [keysNodup, List.map_cons, List.nodup_cons] at hnd
    rcases List.mem_cons.mp hmem with h | h
    · injection h with h1 h2
      subst h1
      subst h2
      simp [lookupA]
    · have hk : k ≠ k2 := by
        rintro rfl
        exact hnd.1 (List.mem_map.mpr ⟨(k, v), h, rfl⟩)
      simp [lookupA, hk, ih hnd.2 h]

/-! Frame lemmas: which fields each operation can touch. -/

theorem sendT1_shape (env : Env) (e : Exchange) :
    ∃ t, (sendT1 env e).2 = { e with sentT1 := t } := by
  unfold sendT1
  split
  · exact ⟨[], rfl⟩
  · dsimp only
    split
    · exact ⟨_, rfl⟩
    · split
      · exact ⟨_, rfl⟩
      · exact ⟨_, rfl⟩
    · exact ⟨_, rfl⟩

theorem processT1Map_shape (l : List (ExchangeHash × Bytes)) :
    ∀ (e : Exchange) (b : Bool),
    ∃ r1, (processT1Map l e b).2 = { e with receivedT1s := r1 } := by
  induction l with
  | nil =>
    intro e b
    exact ⟨e.receivedT1s, rfl⟩
  | cons kv rest ih =>
    intro e b
    obtain ⟨k, v⟩ := kv
    simp only [processT1Map]
    split
    · exact ih e b
    · obtain ⟨r1, h⟩ := ih { e with receivedT1s := insertA k v e.receivedT1s } true
      exact ⟨r1, h⟩

theorem processMessages_shape (l : List ReunionMessage) :
    ∀ (e : Exchange) (b : Bool),
    ∃ r2 r3, (processMessages l e b).2.1 = { e with receivedT2s := r2, receivedT3s := r3 } := by
  induction l with
  | nil =>
    intro e b
    exact ⟨e.receivedT2s, e.receivedT3s, rfl⟩
  | cons m rest ih =>
    intro e b
    simp only [processMessages]
    split
    · split
      · exact ih e b
      · obtain ⟨r2, r3, h⟩ := ih { e with receivedT2s := insertA m.srcT1Hash m.t2Payload e.receivedT2s } true
        exact ⟨r2, r3, h⟩
    · split
      · split
        · exact ih e b
        · obtain ⟨r2, r3, h⟩ := ih { e with receivedT3s := insertA m.srcT1Hash m.t3Payload e.receivedT3s } true
          exact ⟨r2, r3, h⟩
      · exact ⟨e.receivedT2s, e.receivedT3s, rfl⟩

theorem processState_shape (e : Exchange) (st : RequestedReunionState) :
    ∃ r1 r2 r3, (processState e st).2.1 =
      { e with receivedT1s := r1, receivedT2s := r2, receivedT3s := r3 } := by
  obtain ⟨r1, h1⟩ := processT1Map_shape st.t1Map e false
  obtain ⟨r2, r3, h2⟩ :=
    processMessages_shape st.messages (processT1Map st.t1Map e false).2
      (processT1Map st.t1Map e false).1
  refine ⟨r1, r2, r3, ?_⟩
  have hps : (processState e st).2.1 =
      (processMessages st.messages (processT1Map st.t1Map e false).2
        (processT1Map st.t1Map e false).1).2.1 := rfl
  rw [hps, h2, h1]

theorem fetchState_shape (env : Env) (e : Exchange) :
    ∃ r1 r2 r3, (fetchState env e).1 =
      { e with receivedT1s := r1, receivedT2s := r2, receivedT3s := r3 } := by
  unfold fetchState
  split
  · exact ⟨e.receivedT1s, e.receivedT2s, e.receivedT3s, rfl⟩
  · split
    · exact ⟨e.receivedT1s, e.receivedT2s, e.receivedT3s, rfl⟩
    · split
      · exact ⟨e.receivedT1s, e.receivedT2s, e.receivedT3s, rfl⟩
      · split
        · exact ⟨e.receivedT1s, e.receivedT2s, e.receivedT3s, rfl⟩
        · exact processState_shape e _
  · exact ⟨e.receivedT1s, e.receivedT2s, e.receivedT3s, rfl⟩

theorem sendT2Loop_shape (env : Env) (myH : ExchangeHash) (l : List (ExchangeHash × Bytes)) :
    ∀ (e : Exchange) (b : Bool),
    ∃ a m r, (sendT2Loop env myH l e b).2 =
      { e with receivedT1Alphas := a, sentT2Map := m, repliedT1s := r } := by
  induction l with
  | nil =>
    intro e b
    exact ⟨e.receivedT1Alphas, e.sentT2Map, e.repliedT1s, rfl⟩
  | cons kv rest ih =>
    intro e b
    obtain ⟨k, v⟩ := kv
    simp only [sendT2Loop]
    split
    · exact ih e b
    · split
      · exact ih e b
      · split
        · exact ⟨e.receivedT1Alphas, e.sentT2Map, e.repliedT1s, rfl⟩
        · split
          · exact ⟨e.receivedT1Alphas, e.sentT2Map, e.repliedT1s, rfl⟩
          · split
            · exact ⟨_, _, e.repliedT1s, rfl⟩
            · split
              · exact ⟨_, _, e.repliedT1s, rfl⟩
              · exact ih _ true
            · exact ⟨_, _, e.repliedT1s, rfl⟩

theorem sendT3Loop_shape (env : Env) (myH : ExchangeHash) (l : List (ExchangeHash × Bytes)) :
    ∀ (e : Exchange) (b : Bool),
    ∃ d r, (sendT3Loop env myH l e b).2 =
      { e with decryptedT1Betas := d, repliedT2s := r } := by
  induction l with
  | nil =>
    intro e b
    exact ⟨e.decryptedT1Betas, e.repliedT2s, rfl⟩
  | cons kv rest ih =>
    intro e b
    obtain ⟨k, v⟩ := kv
    simp only [sendT3Loop]
    split
    · exact ⟨e.decryptedT1Betas, e.repliedT2s, rfl⟩
    · split
      · exact ih e b
      · split
        · exact ⟨e.decryptedT1Betas, e.repliedT2s, rfl⟩
        · split
          · exact ⟨e.decryptedT1Betas, e.repliedT2s, rfl⟩
          · split
            · exact ⟨e.decryptedT1Betas, e.repliedT2s, rfl⟩
            · split
              · exact ih e b
              · split
                · exact ⟨e.decryptedT1Betas, e.repliedT2s, rfl⟩
                · split
                  · exact ⟨e.decryptedT1Betas, e.repliedT2s, rfl⟩
                  · split
                    · exact ⟨e.decryptedT1Betas, e.repliedT2s, rfl⟩
                    · exact ih _ true
                  · exact ⟨e.decryptedT1Betas, e.repliedT2s, rfl⟩

theorem processT3Loop_exchange (env : Env) (e : Exchange) (l : List (ExchangeHash × Bytes)) :
    ∀ (b : Bool) (t : List ReunionUpdate), (processT3Loop env e l b t).2.1 = e := by
  induction l with
  | nil => intro b t; rfl
  | cons kv rest ih =>
    intro b t
    obtain ⟨k, v⟩ := kv
    simp only [processT3Loop]
    split
    · exact ih b t
    · split
      · rfl
      · split
        · rfl
        · split
          · rfl
          · exact ih true _

/-! Codec round-trip lemmas. -/

theorem decBytes_encBytes (b : Bytes) (r : List Nat) :
    decBytes (encBytes b ++ r) = some (b, r) := by
  simp [encBytes, decBytes, List.take_left, List.drop_left, Nat.le_add_right]

theorem decEntries_encEntries (m : List (ExchangeHash × Bytes)) (r : List Nat) :
    decEntries m.length (encEntries m ++ r) = some (m, r) := by
  induction m generalizing r with
  | nil => simp [encEntries, decEntries]
  | cons kv rest ih =>
    obtain ⟨k, v⟩ := kv
    simp [encEntries, decEntries, List.append_assoc, decBytes_encBytes, ih]

theorem decMap_encMap (m : List (ExchangeHash × Bytes)) (r : List Nat) :
    decMap (encMap m ++ r) = some (m, r) := by
  simp [encMap, decMap, decEntries_encEntries]

theorem decMap_encMap_nil (m : List (ExchangeHash × Bytes)) :
    decMap (encMap m) = some (m, []) := by
  have h := decMap_encMap m []
  simpa using h

theorem serializableUnmarshal_marshal (s : SerializableExchange) :
    serializableUnmarshal (serializableMarshal s) = some s := by
  simp [serializableMarshal, serializableUnmarshal, List.append_assoc,
    decBytes_encBytes, decMap_encMap, decMap_encMap_nil]

theorem exchangeUnmarshal_marshal (e0 e : Exchange) :
    exchangeUnmarshal e0 (exchangeMarshal e) = Except.ok
      { e0 with
        contactID := e.contactID, status := e.status, session := e.session,
        sentT1 := e.sentT1, sentT2Map := e.sentT2Map,
        receivedT1s := e.receivedT1s, receivedT2s := e.receivedT2s,
        receivedT3s := e.receivedT3s, repliedT1s := e.repliedT1s,
        repliedT2s := e.repliedT2s, receivedT1Alphas := e.receivedT1Alphas,
        decryptedT1Betas := e.decryptedT1Betas } := by
  rw [exchangeUnmarshal, exchangeMarshal, serializableUnmarshal_marshal]

/-! Binding-preservation lemmas for the individual loops. -/

theorem processT1Map_received (l : List (ExchangeHash × Bytes)) :
    ∀ (e : Exchange) (b : Bool),
    bindingsPreserved e.receivedT1s (processT1Map l e b).2.receivedT1s := by
  induction l with
  | nil => intro e b k v h; exact h
  | cons kv rest ih =>
    intro e b
    obtain ⟨k2, v2⟩ := kv
    simp only [processT1Map]
    split
    · exact ih e b
    · rename_i hnone
      intro k v h
      apply ih { e with receivedT1s := insertA k2 v2 e.receivedT1s } true k v
      show lookupA k (insertA k2 v2 e.receivedT1s) = some v
      rw [lookupA_insertA]
      by_cases hk : k = k2
      · subst hk
        rw [h] at hnone
        simp at hnone
      · rw [if_neg hk]
        exact h

theorem processT1Map_nodup (l : List (ExchangeHash × Bytes)) :
    ∀ (e : Exchange) (b : Bool),
    keysNodup e.receivedT1s → keysNodup (processT1Map l e b).2.receivedT1s := by
  induction l with
  | nil => intro e b h; exact h
  | cons kv rest ih =>
    intro e b hnd
    obtain ⟨k2, v2⟩ := kv
    simp only [processT1Map]
    split
    · exact ih e b hnd
    · exact ih _ true (keysNodup_insertA k2 v2 e.receivedT1s hnd)

theorem processMessages_received2 (l : List ReunionMessage) :
    ∀ (e : Exchange) (b : Bool),
    bindingsPreserved e.receivedT2s (processMessages l e b).2.1.receivedT2s := by
  induction l with
  | nil => intro e b k v h; exact h
  | cons m rest ih =>
    intro e b
    simp only [processMessages]
    split
    · split
      · exact ih e b
      · rename_i hnone
        intro k v h
        apply ih { e with receivedT2s := insertA m.srcT1Hash m.t2Payload e.receivedT2s } true k v
        show lookupA k (insertA m.srcT1Hash m.t2Payload e.receivedT2s) = some v
        rw [lookupA_insertA]
        by_cases hk : k = m.srcT1Hash
        · subst hk
          rw [h] at hnone
          simp at hnone
        · rw [if_neg hk]
          exact h
    · split
      · split
        · exact ih e b
        · exact ih { e with receivedT3s := insertA m.srcT1Hash m.t3Payload e.receivedT3s } true
      · intro k v h
        exact h

theorem processMessages_received3 (l : List ReunionMessage) :
    ∀ (e : Exchange) (b : Bool),
    bindingsPreserved e.receivedT3s (processMessages l e b).2.1.receivedT3s := by
  induction l with
  | nil => intro e b k v h; exact h
  | cons m rest ih =>
    intro e b
    simp only [processMessages]
    split
    · split
      · exact ih e b
      · exact ih { e with receivedT2s := insertA m.srcT1Hash m.t2Payload e.receivedT2s } true
    · split
      · split
        · exact ih e b
        · rename_i hnone
          intro k v h
          apply ih { e with receivedT3s := insertA m.srcT1Hash m.t3Payload e.receivedT3s } true k v
          show lookupA k (insertA m.srcT1Hash m.t3Payload e.receivedT3s) = some v
          rw [lookupA_insertA]
          by_cases hk : k = m.srcT1Hash
          · subst hk
            rw [h] at hnone
            simp at hnone
          · rw [if_neg hk]
            exact h
      · intro k v h
        exact h

theorem sendT2Loop_replied_preserved (env : Env) (myH : ExchangeHash)
    (l : List (ExchangeHash × Bytes)) :
    ∀ (e : Exchange) (b : Bool),
    bindingsPreserved e.repliedT1s (sendT2Loop env myH l e b).2.repliedT1s := by
  induction l with
  | nil => intro e b k v h; exact h
  | cons kv rest ih =>
    intro e b
    obtain ⟨k2, v2⟩ := kv
    simp only [sendT2Loop]
    split
    · exact ih e b
    · split
      · exact ih e b
      · rename_i hnotrep
        split
        · intro k v h; exact h
        · split
          · intro k v h; exact h
          · split
            · intro k v h; exact h
            · split
              · intro k v h; exact h
              · intro k v h
                apply ih _ true k v
                show lookupA k (insertA k2 v2 e.repliedT1s) = some v
                rw [lookupA_insertA]
                by_cases hk : k = k2
                · subst hk
                  rw [h] at hnotrep
                  simp at hnotrep
                · rw [if_neg hk]
                  exact h
            · intro k v h; exact h

theorem sendT2Loop_no_self (env : Env) (myH : ExchangeHash)
    (l : List (ExchangeHash × Bytes)) :
    ∀ (e : Exchange) (b : Bool),
    lookupA myH e.repliedT1s = none →
    lookupA myH (sendT2Loop env myH l e b).2.repliedT1s = none := by
  induction l with
  | nil => intro e b h; exact h
  | cons kv rest ih =>
    intro e b hnone
    obtain ⟨k2, v2⟩ := kv
    simp only [sendT2Loop]
    split
    · exact ih e b hnone
    · split
      · exact ih e b hnone
      · rename_i hne _
        split
        · exact hnone
        · split
          · exact hnone
          · split
            · exact hnone
            · split
              · exact hnone
              · apply ih _ true
                show lookupA myH (insertA k2 v2 e.repliedT1s) = none
                rw [lookupA_insertA, if_neg (fun h : myH = k2 => hne (h ▸ rfl))]
                exact hnone
            · exact hnone

theorem sendT2Loop_replied_from (env : Env) (myH : ExchangeHash)
    (l : List (ExchangeHash × Bytes)) :
    ∀ (e : Exchange) (b : Bool) (k : ExchangeHash) (v : Bytes),
    lookupA k (sendT2Loop env myH l e b).2.repliedT1s = some v →
    lookupA k e.repliedT1s = some v ∨ (k, v) ∈ l := by
  induction l with
  | nil => intro e b k v h; exact Or.inl h
  | cons kv rest ih =>
    intro e b k v h
    obtain ⟨k2, v2⟩ := kv
    simp only [sendT2Loop] at h
    revert h
    split
    · intro h
      rcases ih e b k v h with h2 | h2
      · exact Or.inl h2
      · exact Or.inr (List.mem_cons_of_mem _ h2)
    · split
      · intro h
        rcases ih e b k v h with h2 | h2
        · exact Or.inl h2
        · exact Or.inr (List.mem_cons_of_mem _ h2)
      · split
        · intro h; exact Or.inl h
        · split
          · intro h; exact Or.inl h
          · split
            · intro h; exact Or.inl h
            · split
              · intro h; exact Or.inl h
              · intro h
                rcases ih _ true k v h with h2 | h2
                · rw [lookupA_insertA] at h2
                  by_cases hk : k = k2
                  · rw [if_pos hk] at h2
                    injection h2 with h3
                    subst hk
                    subst h3
                    exact Or.inr (List.mem_cons_self _ _)
                  · rw [if_neg hk] at h2
                    exact Or.inl h2
                · exact Or.inr (List.mem_cons_of_mem _ h2)
            · intro h; exact Or.inl h

theorem sendT3Loop_replied2_preserved (env : Env) (myH : ExchangeHash)
    (l : List (ExchangeHash × Bytes)) :
    ∀ (e : Exchange) (b : Bool),
    bindingsPreserved e.repliedT2s (sendT3Loop env myH l e b).2.repliedT2s := by
  induction l with
  | nil => intro e b k v h; exact h
  | cons kv rest ih =>
    intro e b
    obtain ⟨k2, v2⟩ := kv
    simp only [sendT3Loop]
    split
    · intro k v h; exact h
    · split
      · exact ih e b
      · rename_i hnotrep
        split
        · intro k v h; exact h
        · split
          · intro k v h; exact h
          · split
            · intro k v h; exact h
            · split
              · exact ih e b
              · split
                · intro k v h; exact h
                · split
                  · intro k v h; exact h
                  · split
                    · intro k v h; exact h
                    · intro k v h
                      apply ih _ true k v
                      show lookupA k (insertA (env.hash v2) v2 e.repliedT2s) = some v
                      rw [lookupA_insertA]
                      by_cases hk : k = env.hash v2
                      · subst hk
                        rw [h] at hnotrep
                        simp at hnotrep
                      · rw [if_neg hk]
                        exact h
                  · intro k v h; exact h

theorem processT3Loop_trace (env : Env) (e : Exchange) (l : List (ExchangeHash × Bytes)) :
    ∀ (b : Bool) (t : List ReunionUpdate),
    ∃ δ, (processT3Loop env e l b t).2.2 = t ++ δ ∧
      ∀ u ∈ δ, u.error = none ∧ u.serialized = none ∧ u.result.isSome = true := by
  induction l with
  | nil =>
    intro b t
    exact ⟨[], (List.append_nil t).symm, by simp⟩
  | cons kv rest ih =>
    intro b t
    obtain ⟨k, v⟩ := kv
    simp only [processT3Loop]
    split
    · exact ih b t
    · split
      · exact ⟨[], (List.append_nil t).symm, by simp⟩
      · split
        · exact ⟨[], (List.append_nil t).symm, by simp⟩
        · split
          · exact ⟨[], (List.append_nil t).symm, by simp⟩
          · rename_i plaintext _
            obtain ⟨δ, hδ, hall⟩ := ih true
              (t ++ [{ contactID := e.contactID, error := none,
                       serialized := none, result := some plaintext }])
            refine ⟨{ contactID := e.contactID, error := none,
                      serialized := none, result := some plaintext } :: δ, ?_, ?_⟩
            · rw [hδ, List.append_assoc]
              rfl
            · intro u hu
              rcases List.mem_cons.mp hu with h | h
              · subst h
                exact ⟨rfl, rfl, rfl⟩
              · exact hall u h

theorem processT3Messages_trace (env : Env) (e : Exchange) :
    ∀ u ∈ (processT3Messages env e).2.2,
      u.error = none ∧ u.serialized = none ∧ u.result.isSome = true := by
  obtain ⟨δ, hδ, hall⟩ := processT3Loop_trace env e e.receivedT3s false []
  intro u hu
  apply hall
  rw [processT3Messages] at hu
  rw [hδ] at hu
  simpa using hu

/-! Trace-observable conversion lemmas. -/

theorem errorFree_iff (t : List ReunionUpdate) :
    errorFree t = true ↔ ∀ u ∈ t, u.error = none := by
  simp [errorFree, List.all_eq_true, Option.not_isSome_iff_eq_none]

theorem resultsOnly_iff (t : List ReunionUpdate) :
    resultsOnly t = true ↔ ∀ u ∈ t, u.result.isSome = true := by
  simp [resultsOnly, List.all_eq_true]

theorem snapshotCount_cons (u : ReunionUpdate) (t : List ReunionUpdate) :
    snapshotCount (u :: t) = (if u.serialized.isSome then 1 else 0) + snapshotCount t := by
  by_cases h : u.serialized.isSome = true <;>
    simp [snapshotCount, List.filter_cons, h, Nat.add_comm]

theorem processT3Messages_snapshotFree (env : Env) (e : Exchange) :
    snapshotCount (processT3Messages env e).2.2 = 0 := by
  have h := processT3Messages_trace env e
  rw [snapshotCount, List.length_eq_zero, List.filter_eq_nil_iff]
  intro u hu
  simp [(h u hu).2.1]

theorem processT3Messages_resultsOnly (env : Env) (e : Exchange) :
    resultsOnly (processT3Messages env e).2.2 = true := by
  rw [resultsOnly_iff]
  intro u hu
  exact (processT3Messages_trace env e u hu).2.2

/-! Unfolding equations for one iteration of the T1Sent loop. -/

theorem runT1Sent_fetchFail (env : Env) (fuel : Nat) (e : Exchange) (idx : Nat)
    (msg : String) (hfetch : (fetchState env e).2 = some msg) :
    runT1Sent env (fuel + 1) e idx =
      { exchange := (fetchState env e).1, trace := [], stopChecks := idx } := by
  have hfe : fetchState env e = ((fetchState env e).1, some msg) := by
    rw [← hfetch]
  rw [runT1Sent, hfe]

theorem runT1Sent_stop1 (env : Env) (fuel : Nat) (e : Exchange) (idx : Nat)
    (hfetch : (fetchState env e).2 = none) (h1 : env.stop idx = true) :
    runT1Sent env (fuel + 1) e idx =
      { exchange := step2 env e, trace := [sentUpdate (step2 env e)],
        stopChecks := idx + 1 } := by
  simp only [step2, step1]
  have hfe : fetchState env e = ((fetchState env e).1, none) := by
    rw [← hfetch]
  rw [runT1Sent, hfe]
  simp only [h1, if_true]

theorem runT1Sent_stop2 (env : Env) (fuel : Nat) (e : Exchange) (idx : Nat)
    (hfetch : (fetchState env e).2 = none) (h1 : env.stop idx = false)
    (h2 : env.stop (idx + 1) = true) :
    runT1Sent env (fuel + 1) e idx =
      { exchange := step3 env e,
        trace := [sentUpdate (step2 env e), sentUpdate (step3 env e)],
        stopChecks := idx + 2 } := by
  simp only [step3, step2, step1]
  have hfe : fetchState env e = ((fetchState env e).1, none) := by
    rw [← hfetch]
  rw [runT1Sent, hfe]
  simp only [h1, h2, Bool.false_eq_true, if_false, if_true]

theorem runT1Sent_succ_done (env : Env) (fuel : Nat) (e : Exchange) (idx : Nat)
    (hfetch : (fetchState env e).2 = none)
    (h1 : env.stop idx = false) (h2 : env.stop (idx + 1) = false)
    (hdone : (step4 env e).1 = true) :
    runT1Sent env (fuel + 1) e idx =
      { exchange := (step4 env e).2.1,
        trace := sentUpdate (step2 env e) :: sentUpdate (step3 env e) :: (step4 env e).2.2,
        stopChecks := idx + 2 } := by
  simp only [step4, step3, step2, step1] at hdone ⊢
  have hfe : fetchState env e = ((fetchState env e).1, none) := by
    rw [← hfetch]
  have hp4 : processT3Messages env (sendT3Messages env (sendT2Messages env (fetchState env e).1).2).2 =
      (true,
       (processT3Messages env (sendT3Messages env (sendT2Messages env (fetchState env e).1).2).2).2.1,
       (processT3Messages env (sendT3Messages env (sendT2Messages env (fetchState env e).1).2).2).2.2) := by
    rw [← hdone]
  rw [runT1Sent, hfe]
  simp only [h1, h2, Bool.false_eq_true, if_false]
  rw [hp4]

theorem runT1Sent_succ_continue (env : Env) (fuel : Nat) (e : Exchange) (idx : Nat)
    (hfetch : (fetchState env e).2 = none)
    (h1 : env.stop idx = false) (h2 : env.stop (idx + 1) = false)
    (hdone : (step4 env e).1 = false) :
    runT1Sent env (fuel + 1) e idx =
      { exchange := (runT1Sent env fuel (step4 env e).2.1 (idx + 2)).exchange,
        trace := sentUpdate (step2 env e) :: sentUpdate (step3 env e) ::
          ((step4 env e).2.2 ++ (runT1Sent env fuel (step4 env e).2.1 (idx + 2)).trace),
        stopChecks := (runT1Sent env fuel (step4 env e).2.1 (idx + 2)).stopChecks } := by
  simp only [step4, step3, step2, step1] at hdone ⊢
  have hfe : fetchState env e = ((fetchState env e).1, none) := by
    rw [← hfetch]
  have hp4 : processT3Messages env (sendT3Messages env (sendT2Messages env (fetchState env e).1).2).2 =
      (false,
       (processT3Messages env (sendT3Messages env (sendT2Messages env (fetchState env e).1).2).2).2.1,
       (processT3Messages env (sendT3Messages env (sendT2Messages env (fetchState env e).1).2).2).2.2) := by
    rw [← hdone]
  rw [runT1Sent, hfe]
  simp only [h1, h2, Bool.false_eq_true, if_false]
  rw [hp4]

/-! Every update the driver ever emits from the Initial or T1Sent states
carries no error. -/

theorem runT1Sent_errorFree (env : Env) :
    ∀ (fuel : Nat) (e : Exchange) (idx : Nat),
    errorFree (runT1Sent env fuel e idx).trace = true := by
  intro fuel
  induction fuel with
  | zero => intro e idx; rfl
  | succ n ih =>
    intro e idx
    cases herr : (fetchState env e).2 with
    | some msg =>
      rw [runT1Sent_fetchFail env n e idx msg herr]
      rfl
    | none =>
      cases hstop : env.stop idx with
      | true =>
        rw [runT1Sent_stop1 env n e idx herr hstop]
        simp [errorFree, sentUpdate]
      | false =>
        cases hstop2 : env.stop (idx + 1) with
        | true =>
          rw [runT1Sent_stop2 env n e idx herr hstop hstop2]
          simp [errorFree, sentUpdate]
        | false =>
          cases hdone : (step4 env e).1 with
          | true =>
            rw [runT1Sent_succ_done env n e idx herr hstop hstop2 hdone]
            rw [errorFree_iff]
            intro u hu
            rcases List.mem_cons.mp hu with h | h
            · subst h; rfl
            rcases List.mem_cons.mp h with h2 | h2
            · subst h2; rfl
            · exact (processT3Messages_trace env _ u h2).1
          | false =>
            rw [runT1Sent_succ_continue env n e idx herr hstop hstop2 hdone]
            rw [errorFree_iff]
            intro u hu
            rcases List.mem_cons.mp hu with h | h
            · subst h; rfl
            rcases List.mem_cons.mp h with h2 | h2
            · subst h2; rfl
            rcases List.mem_append.mp h2 with h3 | h3
            · exact (processT3Messages_trace env _ u h3).1
            · exact (errorFree_iff _).mp (ih _ _) u h3

theorem sendT1Step_shape (env : Env) (e : Exchange) :
    ∃ t s, sendT1Step env e = { e with sentT1 := t, status := s } := by
  obtain ⟨t, hshape⟩ := sendT1_shape env e
  rw [sendT1Step]
  rcases hs : sendT1 env e with ⟨ok, e1⟩
  rw [hs] at hshape
  cases ok
  · exact ⟨t, e.status, hshape⟩
  · refine ⟨t, t1MessageSentState, ?_⟩
    dsimp only
    rw [show e1 = { e with sentT1 := t } from hshape]

/-- The no-self-reply invariant, with the auxiliary fact that an
Initial-status reachable state has an empty repliedT1s. -/
theorem reachable_no_self (env : Env) (e : Exchange) (h : Reachable env e) :
    (e.status = initialState → e.repliedT1s = []) ∧
    lookupA (env.hash e.sentT1) e.repliedT1s = none := by
  induction h with
  | init cid s p => exact ⟨fun _ => rfl, rfl⟩
  | t1Step e he hst ih =>
    obtain ⟨t, s, hshape⟩ := sendT1Step_shape env e
    have hrep : e.repliedT1s = [] := ih.1 hst
    rw [hshape]
    refine ⟨fun _ => hrep, ?_⟩
    show lookupA (env.hash t) e.repliedT1s = none
    rw [hrep]
    rfl
  | fetch e he hst ih =>
    obtain ⟨r1, r2, r3, hshape⟩ := fetchState_shape env e
    rw [hshape]
    exact ih
  | t2 e he hst ih =>
    constructor
    · intro h0
      obtain ⟨a, m, r, hshape⟩ := sendT2Loop_shape env (env.hash e.sentT1) e.receivedT1s e false
      rw [sendT2Messages, hshape] at h0
      have h0e : e.status = initialState := h0
      exact absurd (hst.symm.trans h0e) (by decide)
    · obtain ⟨a, m, r, hshape⟩ := sendT2Loop_shape env (env.hash e.sentT1) e.receivedT1s e false
      have hsent : (sendT2Messages env e).2.sentT1 = e.sentT1 := by
        rw [sendT2Messages, hshape]
      show lookupA (env.hash (sendT2Messages env e).2.sentT1) (sendT2Messages env e).2.repliedT1s = none
      rw [hsent, sendT2Messages]
      exact sendT2Loop_no_self env (env.hash e.sentT1) e.receivedT1s e false ih.2
  | t3 e he hst ih =>
    obtain ⟨d, r, hshape⟩ := sendT3Loop_shape env (env.hash e.sentT1) e.receivedT2s e false
    rw [sendT3Messages, hshape]
    exact ih
  | resume e e0 e1 he hun ih =>
    rw [exchangeUnmarshal_marshal e0 e] at hun
    injection hun with h1
    rw [← h1]
    exact ih

/-- Key uniqueness of receivedT1s plus the replied-subset invariant,
established together along reachability. -/
theorem processState_received (e : Exchange) (st : RequestedReunionState) :
    bindingsPreserved e.receivedT1s (processState e st).2.1.receivedT1s := by
  intro k v h
  obtain ⟨r2, r3, hsh⟩ :=
    processMessages_shape st.messages (processT1Map st.t1Map e false).2
      (processT1Map st.t1Map e false).1
  have hrfl : (processState e st).2.1 =
      (processMessages st.messages (processT1Map st.t1Map e false).2
        (processT1Map st.t1Map e false).1).2.1 := rfl
  rw [hrfl, hsh]
  show lookupA k (processT1Map st.t1Map e false).2.receivedT1s = some v
  exact processT1Map_received st.t1Map e false k v h

theorem processState_nodup (e : Exchange) (st : RequestedReunionState) :
    keysNodup e.receivedT1s → keysNodup (processState e st).2.1.receivedT1s := by
  intro hnd
  obtain ⟨r2, r3, hsh⟩ :=
    processMessages_shape st.messages (processT1Map st.t1Map e false).2
      (processT1Map st.t1Map e false).1
  have hrfl : (processState e st).2.1 =
      (processMessages st.messages (processT1Map st.t1Map e false).2
        (processT1Map st.t1Map e false).1).2.1 := rfl
  rw [hrfl, hsh]
  show keysNodup (processT1Map st.t1Map e false).2.receivedT1s
  exact processT1Map_nodup st.t1Map e false hnd

theorem processState_received2 (e : Exchange) (st : RequestedReunionState) :
    bindingsPreserved e.receivedT2s (processState e st).2.1.receivedT2s := by
  intro k v h
  obtain ⟨r1, hsh1⟩ := processT1Map_shape st.t1Map e false
  have hrfl : (processState e st).2.1 =
      (processMessages st.messages (processT1Map st.t1Map e false).2
        (processT1Map st.t1Map e false).1).2.1 := rfl
  rw [hrfl]
  apply processMessages_received2 st.messages (processT1Map st.t1Map e false).2
    (processT1Map st.t1Map e false).1 k v
  rw [hsh1]
  exact h

theorem processState_received3 (e : Exchange) (st : RequestedReunionState) :
    bindingsPreserved e.receivedT3s (processState e st).2.1.receivedT3s := by
  intro k v h
  obtain ⟨r1, hsh1⟩ := processT1Map_shape st.t1Map e false
  have hrfl : (processState e st).2.1 =
      (processMessages st.messages (processT1Map st.t1Map e false).2
        (processT1Map st.t1Map e false).1).2.1 := rfl
  rw [hrfl]
  apply processMessages_received3 st.messages (processT1Map st.t1Map e false).2
    (processT1Map st.t1Map e false).1 k v
  rw [hsh1]
  exact h

theorem fetchState_received (env : Env) (e : Exchange) :
    bindingsPreserved e.receivedT1s (fetchState env e).1.receivedT1s := by
  unfold fetchState
  split
  · intro k v h; exact h
  · split
    · intro k v h; exact h
    · split
      · intro k v h; exact h
      · split
        · intro k v h; exact h
        · exact processState_received e _
  · intro k v h; exact h

theorem fetchState_nodup (env : Env) (e : Exchange) :
    keysNodup e.receivedT1s → keysNodup (fetchState env e).1.receivedT1s := by
  unfold fetchState
  split
  · intro h; exact h
  · split
    · intro h; exact h
    · split
      · intro h; exact h
      · split
        · intro h; exact h
        · exact processState_nodup e _
  · intro h; exact h

theorem reachable_subset (env : Env) (e : Exchange) (h : Reachable env e) :
    keysNodup e.receivedT1s ∧ RepliedSubset e := by
  induction h with
  | init cid s p =>
    refine ⟨by simp [keysNodup, newExchange], ?_⟩
    intro k v hkv
    exact Option.noConfusion hkv
  | t1Step e he hst ih =>
    obtain ⟨t, s, hshape⟩ := sendT1Step_shape env e
    rw [hshape]
    exact ih
  | fetch e he hst ih =>
    refine ⟨fetchState_nodup env e ih.1, ?_⟩
    intro k v hkv
    obtain ⟨r1, r2, r3, hshape⟩ := fetchState_shape env e
    have hrep : (fetchState env e).1.repliedT1s = e.repliedT1s := by rw [hshape]
    rw [hrep] at hkv
    exact fetchState_received env e k v (ih.2 k v hkv)
  | t2 e he hst ih =>
    obtain ⟨a, m, r, hshape⟩ := sendT2Loop_shape env (env.hash e.sentT1) e.receivedT1s e false
    constructor
    · rw [sendT2Messages, hshape]
      exact ih.1
    · intro k v hkv
      rw [sendT2Messages] at hkv
      rw [sendT2Messages, hshape]
      show lookupA k e.receivedT1s = some v
      rcases sendT2Loop_replied_from env (env.hash e.sentT1) e.receivedT1s e false k v hkv with h2 | h2
      · exact ih.2 k v h2
      · exact lookupA_of_mem k v e.receivedT1s ih.1 h2
  | t3 e he hst ih =>
    obtain ⟨d, r, hshape⟩ := sendT3Loop_shape env (env.hash e.sentT1) e.receivedT2s e false
    rw [sendT3Messages, hshape]
    exact ih
  | resume e e0 e1 he hun ih =>
    rw [exchangeUnmarshal_marshal e0 e] at hun
    injection hun with h1
    rw [← h1]
    exact ih

theorem processMessages_err (l : List ReunionMessage) :
    ∀ (e : Exchange) (b : Bool),
    (∃ m ∈ l, m.t2Payload = [] ∧ m.t3Payload = []) →
    (processMessages l e b).2.2 ≠ none := by
  induction l with
  | nil =>
    rintro e b ⟨m, hm, _⟩
    simp at hm
  | cons m rest ih =>
    rintro e b ⟨m2, hm2, he2, he3⟩
    rcases List.mem_cons.mp hm2 with heq | hmem
    · subst heq
      simp only [processMessages, he2, he3]
      simp
    · simp only [processMessages]
      split
      · split
        · exact ih e b ⟨m2, hmem, he2, he3⟩
        · exact ih _ true ⟨m2, hmem, he2, he3⟩
      · split
        · split
          · exact ih e b ⟨m2, hmem, he2, he3⟩
          · exact ih _ true ⟨m2, hmem, he2, he3⟩
        · simp

/-- C1 (amended): the claim said every fatal failure (send_t1 failing in
the Initial state, fetch_state erring in the T1Sent loop) makes Run emit
one final ReunionUpdate carrying the failure.  The code instead logs the
failure and returns without emitting anything (see the counterexample).
Amended as the counterexample forces: a run started in the Initial or
T1Sent state never emits an update carrying an error at all — on a fatal
failure the driver terminates silently; the only error-bearing update in
Run is the unknown-state update of the default branch, and the modelled
snapshot marshal is total, so sentUpdateOK always carries a nil error. -/
theorem c1_fatal_failures_emit_no_error_update (env : Env) (fuel : Nat) (e : Exchange) (idx : Nat)
    (h : e.status = initialState ∨ e.status = t1MessageSentState) :
    errorFree (runExchange env fuel e idx).trace = true := by
  rcases h with h | h
  · rw [runExchange, if_pos h]
    rcases hs : sendT1 env e with ⟨ok, e1⟩
    cases ok
    · rfl
    · dsimp only
      cases hstop : env.stop idx with
      | true => simp [errorFree, sentUpdate]
      | false =>
        rw [errorFree_iff]
        intro u hu
        rcases List.mem_cons.mp hu with h2 | h2
        · subst h2; rfl
        · exact (errorFree_iff _).mp (runT1Sent_errorFree env fuel _ _) u h2
  · rw [runExchange]
    by_cases h0 : e.status = initialState
    · rw [h0] at h
      simp [initialState, t1MessageSentState] at h
    · rw [if_neg h0, if_pos h]
      exact runT1Sent_errorFree env fuel e idx

/-- C1 (counterexample): with a database whose FetchState query fails at
the transport, a T1Sent run terminates with an empty trace — no final
error update; likewise when T1 generation fails in the Initial state. -/
theorem c1_counterexample :
    (runExchange envFetchFail 5 eIdle 0).trace = [] ∧
    (runExchange envT1GenFail 5 eInit 0).trace = [] := by
  exact ⟨by decide, by decide⟩

/-- C1 (witness): a T1Sent run under the all-OK environment emits only
error-free updates. -/
theorem c1_witness :
    (eIdle.status = initialState ∨ eIdle.status = t1MessageSentState) ∧
    errorFree (runExchange envOk 2 eIdle 0).trace = true := by
  exact ⟨Or.inr rfl,
    c1_fatal_failures_emit_no_error_update envOk 2 eIdle 0 (Or.inr rfl)⟩

/-- C2 (counterexample): a run in which two peers' T3s both decrypt
emits two result-bearing updates in a single invocation of
process_t3_messages, refuting "at most one Result-bearing update is
ever emitted". -/
theorem c2_counterexample :
    resultCount (runT1Sent envOk 1 eC2 0).trace = 2 ∧
    ¬resultCount (runT1Sent envOk 1 eC2 0).trace ≤ 1 := by
  exact ⟨by decide, by decide⟩

/-- C2 (amended): result updates come only from process_t3_messages (an
update of its trace always carries a result), and when an invocation of
process_t3_messages reports success the driver exits the loop at once:
the run's trace ends with exactly that invocation's result updates and
no update of any kind follows them.  More than one result update may be
emitted by that final invocation — one per successfully processed T3. -/
theorem c2_result_updates_terminal (env : Env) (fuel : Nat) (e : Exchange) (idx : Nat)
    (hfetch : (fetchState env e).2 = none)
    (h1 : env.stop idx = false) (h2 : env.stop (idx + 1) = false)
    (hdone : (step4 env e).1 = true) :
    runT1Sent env (fuel + 1) e idx =
      { exchange := (step4 env e).2.1,
        trace := sentUpdate (step2 env e) :: sentUpdate (step3 env e) :: (step4 env e).2.2,
        stopChecks := idx + 2 } ∧
    resultsOnly (step4 env e).2.2 = true :=
  ⟨runT1Sent_succ_done env fuel e idx hfetch h1 h2 hdone,
   processT3Messages_resultsOnly env (step3 env e)⟩

/-- C2 (witness): the amended statement applied to the two-peer success
state, discharging every hypothesis concretely. -/
theorem c2_witness :
    (fetchState envOk eC2).2 = none ∧ envOk.stop 0 = false ∧ envOk.stop 1 = false ∧
    (step4 envOk eC2).1 = true ∧
    runT1Sent envOk 1 eC2 0 =
      { exchange := (step4 envOk eC2).2.1,
        trace := sentUpdate (step2 envOk eC2) :: sentUpdate (step3 envOk eC2) ::
          (step4 envOk eC2).2.2,
        stopChecks := 2 } := by
  refine ⟨by decide, rfl, rfl, by decide, ?_⟩
  exact (c2_result_updates_terminal envOk 0 eC2 0 (by decide) rfl rfl (by decide)).1

/-- C3 (code evaluation at the failing input): two pending foreign T1s,
of which only the first fails to decode; sendT2Messages aborts the whole
pass — it returns false with the exchange untouched, so the decodable
second T1 is not answered in this invocation.  The claim (and §7/§9 of
the spec) require only the offending peer-message to be skipped. -/
theorem c3_decode_failure_aborts_pass :
    sendT2Messages envDecodeFailOn1 eC3 = (false, eC3) := by decide

/-- C4 (counterexample): two pending T2s whose source T1s are both
known, with a stored alpha only for the second; instead of silently
skipping the first pair and answering the second, sendT3Messages
returns false at once with the exchange untouched — the second pair is
not processed in this pass, and nothing is marked. -/
theorem c4_counterexample :
    sendT3Messages envOk eC4 = (false, eC4) := by decide

/-- C4 (amended): when the stored alpha for a source is absent (its T1
being known and its T2 not yet replied), send_t3_messages aborts the
current pass immediately — returning false with the exchange unchanged,
so nothing is marked in replied_t2s and no error update is emitted; the
pair is only retried on a later loop iteration because the whole pass
reruns. -/
theorem c4_missing_alpha_aborts_pass (env : Env) (myH srcT1Hash : ExchangeHash)
    (t2 : Bytes) (rest : List (ExchangeHash × Bytes)) (e : Exchange) (b : Bool)
    (t1 : Bytes)
    (ht1 : lookupA srcT1Hash e.receivedT1s = some t1)
    (hunrep : lookupA (env.hash t2) e.repliedT2s = none)
    (halpha : lookupA srcT1Hash e.receivedT1Alphas = none) :
    sendT3Loop env myH ((srcT1Hash, t2) :: rest) e b = (false, e) := by
  simp [sendT3Loop, ht1, hunrep, halpha]

/-- C4 (witness): the amended statement applied at the concrete
missing-alpha state. -/
theorem c4_witness :
    (lookupA [1] eC4.receivedT1s = some [10] ∧
     lookupA (envOk.hash [5]) eC4.repliedT2s = none ∧
     lookupA [1] eC4.receivedT1Alphas = none) ∧
    sendT3Loop envOk [100, 9] [([1], [5]), ([2], [6])] eC4 false = (false, eC4) := by
  refine ⟨⟨by decide, by decide, by decide⟩, ?_⟩
  exact c4_missing_alpha_aborts_pass envOk [100, 9] [1] [5] [([2], [6])] eC4 false [10]
    (by decide) (by decide) (by decide)

/-- C5 (counterexample): answering one foreign T1 while the SendT2 query
returns a non-OK code: repliedT1s stays empty, as the claim says, but
sentT2Map has already gained the hash(t2) → t2 entry — it is written
before the query, not after an OK response. -/
theorem c5_counterexample :
    (sendT2Messages envT2NonOk eC5).2.repliedT1s = [] ∧
    (sendT2Messages envT2NonOk eC5).2.sentT2Map = [([100, 80, 50, 10], [80, 50, 10])] := by
  exact ⟨by decide, by decide⟩

/-- C5 (amended): for a foreign T1 that passes the self- and
already-replied guards and whose decode and alpha processing succeed,
receivedT1Alphas and sentT2Map gain their entries before the SendT2
query, whatever its outcome; only the h → t1 entry of repliedT1s is
conditional on an OK response — on a transport error or a non-OK code
the pass stops with sentT2Map (and receivedT1Alphas) already extended
and repliedT1s unchanged. -/
theorem c5_t2_stored_before_query (env : Env) (myH t1Hash : ExchangeHash) (t1 : Bytes)
    (rest : List (ExchangeHash × Bytes)) (e : Exchange) (b : Bool)
    (hself : ¬t1Hash = myH) (hunrep : lookupA t1Hash e.repliedT1s = none)
    (alpha x y : Bytes) (hdec : env.decodeT1Message t1 = Except.ok (alpha, x, y))
    (t2 : Bytes) (alphaPub : PublicKey)
    (hpa : env.processType1MessageAlpha alpha = Except.ok (t2, alphaPub)) :
    (env.query (Command.sendT2 e.session.epoch myH t1Hash t2) =
        Except.ok (Response.message 0) →
      sendT2Loop env myH ((t1Hash, t1) :: rest) e b =
        sendT2Loop env myH rest
          { e with
            receivedT1Alphas := insertA t1Hash alphaPub e.receivedT1Alphas,
            sentT2Map := insertA (env.hash t2) t2 e.sentT2Map,
            repliedT1s := insertA t1Hash t1 e.repliedT1s } true) ∧
    (∀ ec, ec ≠ 0 →
      env.query (Command.sendT2 e.session.epoch myH t1Hash t2) =
        Except.ok (Response.message ec) →
      sendT2Loop env myH ((t1Hash, t1) :: rest) e b =
        (false,
         { e with
           receivedT1Alphas := insertA t1Hash alphaPub e.receivedT1Alphas,
           sentT2Map := insertA (env.hash t2) t2 e.sentT2Map })) ∧
    (∀ msg, env.query (Command.sendT2 e.session.epoch myH t1Hash t2) =
        Except.error msg →
      sendT2Loop env myH ((t1Hash, t1) :: rest) e b =
        (false,
         { e with
           receivedT1Alphas := insertA t1Hash alphaPub e.receivedT1Alphas,
           sentT2Map := insertA (env.hash t2) t2 e.sentT2Map })) := by
  refine ⟨?_, ?_, ?_⟩
  · intro hq
    simp [sendT2Loop, hself, hunrep, hdec, hpa, hq]
  · intro ec hec hq
    simp [sendT2Loop, hself, hunrep, hdec, hpa, hq, hec]
  · intro msg hq
    simp [sendT2Loop, hself, hunrep, hdec, hpa, hq]

/-- C5 (witness): the amended statement's non-OK branch applied at the
concrete one-T1 state under the non-OK database. -/
theorem c5_witness :
    (¬([1] : ExchangeHash) = [100, 9] ∧ lookupA [1] eC5.repliedT1s = none ∧
     envT2NonOk.decodeT1Message [10] = Except.ok ([50, 10], [60, 10], [70, 10]) ∧
     envT2NonOk.processType1MessageAlpha [50, 10] = Except.ok ([80, 50, 10], [81, 50, 10])) ∧
    sendT2Loop envT2NonOk [100, 9] [([1], [10])] eC5 false =
      (false,
       { eC5 with
         receivedT1Alphas := insertA [1] [81, 50, 10] eC5.receivedT1Alphas,
         sentT2Map := insertA [100, 80, 50, 10] [80, 50, 10] eC5.sentT2Map }) := by
  refine ⟨⟨by decide, by decide, rfl, rfl⟩, ?_⟩
  exact (c5_t2_stored_before_query envT2NonOk [100, 9] [1] [10] [] eC5 false
    (by decide) (by decide) [50, 10] [60, 10] [70, 10] rfl [80, 50, 10] [81, 50, 10] rfl).2.1
    1 (by decide) rfl

/-- C6 (counterexample): a full T1Sent iteration emits exactly two
snapshot updates and consults the cancellation signal exactly twice —
not three of each; and a cancellation observed at the first check ends
the run with no shutdown error update (the one update of the trace is
the error-free snapshot emitted before the check). -/
theorem c6_counterexample :
    snapshotCount (runT1Sent envOk 1 eIdle 0).trace = 2 ∧
    (runT1Sent envOk 1 eIdle 0).stopChecks = 2 ∧
    (runT1Sent envStopNow 1 eIdle 0).trace =
      [sentUpdate (sendT2Messages envStopNow eIdle).2] ∧
    errorFree (runT1Sent envStopNow 1 eIdle 0).trace = true := by
  exact ⟨by decide, by decide, by decide, by decide⟩

/-- C6 (amended): in each T1Sent iteration whose fetch_state succeeds,
the driver emits a snapshot update after send_t2_messages and after
send_t3_messages only (two snapshots — none after fetch_state) and
checks the cancellation signal exactly twice, at the indexes idx and
idx+1, continuing at idx+2; if cancelled it terminates with the
snapshots already emitted and no shutdown error update. -/
theorem c6_two_snapshots_two_checks (env : Env) (fuel : Nat) (e : Exchange) (idx : Nat)
    (hfetch : (fetchState env e).2 = none) :
    (env.stop idx = true →
      runT1Sent env (fuel + 1) e idx =
        { exchange := step2 env e, trace := [sentUpdate (step2 env e)],
          stopChecks := idx + 1 } ∧
      errorFree [sentUpdate (step2 env e)] = true) ∧
    (env.stop idx = false → env.stop (idx + 1) = true →
      runT1Sent env (fuel + 1) e idx =
        { exchange := step3 env e,
          trace := [sentUpdate (step2 env e), sentUpdate (step3 env e)],
          stopChecks := idx + 2 } ∧
      errorFree [sentUpdate (step2 env e), sentUpdate (step3 env e)] = true) ∧
    (env.stop idx = false → env.stop (idx + 1) = false →
      snapshotCount (sentUpdate (step2 env e) :: sentUpdate (step3 env e) ::
        (step4 env e).2.2) = 2 ∧
      ((step4 env e).1 = true →
        runT1Sent env (fuel + 1) e idx =
          { exchange := (step4 env e).2.1,
            trace := sentUpdate (step2 env e) :: sentUpdate (step3 env e) ::
              (step4 env e).2.2,
            stopChecks := idx + 2 }) ∧
      ((step4 env e).1 = false →
        runT1Sent env (fuel + 1) e idx =
          { exchange := (runT1Sent env fuel (step4 env e).2.1 (idx + 2)).exchange,
            trace := sentUpdate (step2 env e) :: sentUpdate (step3 env e) ::
              ((step4 env e).2.2 ++ (runT1Sent env fuel (step4 env e).2.1 (idx + 2)).trace),
            stopChecks := (runT1Sent env fuel (step4 env e).2.1 (idx + 2)).stopChecks })) := by
  refine ⟨?_, ?_, ?_⟩
  · intro h1
    exact ⟨runT1Sent_stop1 env fuel e idx hfetch h1, by simp [errorFree, sentUpdate]⟩
  · intro h1 h2
    exact ⟨runT1Sent_stop2 env fuel e idx hfetch h1 h2, by simp [errorFree, sentUpdate]⟩
  · intro h1 h2
    refine ⟨?_, ?_, ?_⟩
    · have h0 : snapshotCount (step4 env e).2.2 = 0 :=
        processT3Messages_snapshotFree env (step3 env e)
      rw [snapshotCount_cons, snapshotCount_cons, h0]
      rfl
    · intro hdone
      exact runT1Sent_succ_done env fuel e idx hfetch h1 h2 hdone
    · intro hdone
      exact runT1Sent_succ_continue env fuel e idx hfetch h1 h2 hdone

/-- C6 (witness): the amended statement's snapshot count at the idle
T1Sent state under the all-OK environment. -/
theorem c6_witness :
    (fetchState envOk eIdle).2 = none ∧ envOk.stop 0 = false ∧ envOk.stop 1 = false ∧
    snapshotCount (sentUpdate (step2 envOk eIdle) :: sentUpdate (step3 envOk eIdle) ::
      (step4 envOk eIdle).2.2) = 2 := by
  refine ⟨by decide, rfl, rfl, ?_⟩
  exact ((c6_two_snapshots_two_checks envOk 0 eIdle 0 (by decide)).2.2 rfl rfl).1

/-- C7: unmarshalling the result of marshalling an Exchange state
succeeds and reproduces the state exactly — structural equality on all
twelve persistent fields (the payload, which is not part of the
snapshot, belongs to the receiving exchange and is untouched).  Proved
for every state, hence in particular for every reachable one. -/
theorem c7_snapshot_roundtrip (e : Exchange) :
    exchangeUnmarshal e (exchangeMarshal e) = Except.ok e := by
  rw [exchangeUnmarshal_marshal e e]

/-- C8: for every state reachable by the driver, the hash of the own
sent T1 is never a key of repliedT1s — the exchange never answers its
own T1 with a T2 (byte equality on hashes; the sendT2Messages guard
skips the own hash before any insertion). -/
theorem c8_no_self_reply (env : Env) (e : Exchange) (h : Reachable env e) :
    lookupA (env.hash e.sentT1) e.repliedT1s = none :=
  (reachable_no_self env e h).2

/-- C8 (witness): the invariant at the freshly created exchange. -/
theorem c8_witness :
    Reachable envOk eInit ∧ lookupA (envOk.hash eInit.sentT1) eInit.repliedT1s = none := by
  have h : Reachable envOk eInit := Reachable.init 7 { epoch := 1 } [3]
  exact ⟨h, c8_no_self_reply envOk eInit h⟩

/-- C9: across fetch_state, send_t2_messages, send_t3_messages and
process_t3_messages, repliedT1s and repliedT2s only grow — every
binding present before an operation is present unchanged afterwards
(and processT3Messages leaves the exchange untouched entirely) — and on
every reachable state repliedT1s is a subset of receivedT1s, binding by
binding. -/
theorem c9_reply_monotonicity (env : Env) (e : Exchange) (h : Reachable env e) :
    ReplyMonotone env e ∧ RepliedSubset e := by
  refine ⟨?_, (reachable_subset env e h).2⟩
  obtain ⟨r1, r2, r3, hshf⟩ := fetchState_shape env e
  obtain ⟨a2, m2, rr2, hsh2⟩ := sendT2Loop_shape env (env.hash e.sentT1) e.receivedT1s e false
  obtain ⟨d3, rr3, hsh3⟩ := sendT3Loop_shape env (env.hash e.sentT1) e.receivedT2s e false
  have hpt3 : (processT3Messages env e).2.1 = e :=
    processT3Loop_exchange env e e.receivedT3s false []
  refine ⟨?_, ?_, ?_, ?_, ?_, ?_, ?_, ?_⟩
  · intro k v hkv
    rw [hshf]
    exact hkv
  · intro k v hkv
    rw [hshf]
    exact hkv
  · intro k v hkv
    rw [sendT2Messages]
    exact sendT2Loop_replied_preserved env (env.hash e.sentT1) e.receivedT1s e false k v hkv
  · intro k v hkv
    rw [sendT2Messages, hsh2]
    exact hkv
  · intro k v hkv
    rw [sendT3Messages, hsh3]
    exact hkv
  · intro k v hkv
    rw [sendT3Messages]
    exact sendT3Loop_replied2_preserved env (env.hash e.sentT1) e.receivedT2s e false k v hkv
  · intro k v hkv
    rw [hpt3]
    exact hkv
  · intro k v hkv
    rw [hpt3]
    exact hkv

/-- C9 (witness): the monotonicity and subset facts at the freshly
created exchange. -/
theorem c9_witness :
    Reachable envOk eInit ∧ (ReplyMonotone envOk eInit ∧ RepliedSubset eInit) := by
  have h : Reachable envOk eInit := Reachable.init 7 { epoch := 1 } [3]
  exact ⟨h, c9_reply_monotonicity envOk eInit h⟩

/-- C10: processState is first-write-wins — a key already bound in
receivedT1s, receivedT2s or receivedT3s keeps its binding, nothing is
ever removed; a fetched message with both payloads empty makes
processState report an error; and a message with both payloads
non-empty is classified by the T2 branch and stored as a T2. -/
theorem c10_first_write_wins (e : Exchange) (st : RequestedReunionState)
    (src : ExchangeHash) (t2p t3p : Bytes)
    (h2 : t2p ≠ []) (h3 : t3p ≠ []) (habs : lookupA src e.receivedT2s = none) :
    FirstWriteWins e st ∧ EmptyMessageErrs e st ∧
    processState e
        { t1Map := [],
          messages := [{ srcT1Hash := src, t2Payload := t2p, t3Payload := t3p }] } =
      (true, { e with receivedT2s := insertA src t2p e.receivedT2s }, none) := by
  refine ⟨⟨processState_received e st, processState_received2 e st,
    processState_received3 e st⟩, ?_, ?_⟩
  · intro hex
    exact processMessages_err st.messages (processT1Map st.t1Map e false).2
      (processT1Map st.t1Map e false).1 hex
  · have hlen : 0 < t2p.length := List.length_pos.mpr h2
    show processMessages [{ srcT1Hash := src, t2Payload := t2p, t3Payload := t3p }] e false = _
    simp only [processMessages, if_pos hlen, habs]

/-- C10 (witness): the statement applied at the idle exchange with a
concrete doubly-non-empty message. -/
theorem c10_witness :
    (([5] : Bytes) ≠ [] ∧ ([6] : Bytes) ≠ [] ∧ lookupA [1] eIdle.receivedT2s = none) ∧
    (FirstWriteWins eIdle { t1Map := [], messages := [] } ∧
     EmptyMessageErrs eIdle { t1Map := [], messages := [] } ∧
     processState eIdle
         { t1Map := [],
           messages := [{ srcT1Hash := [1], t2Payload := [5], t3Payload := [6] }] } =
       (true, { eIdle with receivedT2s := insertA [1] [5] eIdle.receivedT2s }, none)) := by
  refine ⟨⟨by decide, by decide, by decide⟩, ?_⟩
  exact c10_first_write_wins eIdle { t1Map := [], messages := [] } [1] [5] [6]
    (by decide) (by decide) (by decide)

end Reunion
